import Mathlib

/-!
Shallow embedding of the trading bot's core (`backend/app/services/trading/`):
the exit-strategy engine (`strategies/base.py`, `strategies/custom.py`,
`strategies/advanced.py`), the pre-trade risk validator (`risk_manager.py`),
the position manager (`position_manager.py`), the order monitor
(`order_monitor.py`) and the executor's exit step (`executor.py`).

Python floats are modelled as rationals, Python dicts keyed by strings as
association lists with unique keys, Python sets as duplicate-free lists, and
wall-clock inputs (today's date, the current time) as explicit parameters;
timestamps are measured in hours so that `hold_hours = now - created_at`.
-/

namespace PolyBot

/-- Python truthiness of an optional number: `None` and `0` are falsy. -/
def truthyQ : Option ℚ → Bool
  | none => false
  | some q => q != 0

/-- Python truthiness of an optional string: `None` and `""` are falsy. -/
def truthyS : Option String → Bool
  | none => false
  | some s => s != ""

/-- Dict lookup `d.get(k)` on a dict modelled as an association list. -/
def dget {α : Type} : List (String × α) → String → Option α
  | [], _ => none
  | p :: rest, k => if p.1 = k then some p.2 else dget rest k

/-- Dict update `d[k] = v`: overwrite in place, else append. -/
def dset {α : Type} : List (String × α) → String → α → List (String × α)
  | [], k, v => [(k, v)]
  | p :: rest, k, v => if p.1 = k then (k, v) :: rest else p :: dset rest k v

/-- Dict removal `d.pop(k, None)`. -/
def dpop {α : Type} : List (String × α) → String → List (String × α)
  | [], _ => []
  | p :: rest, k => if p.1 = k then dpop rest k else p :: dpop rest k

theorem dget_dset_self {α : Type} (m : List (String × α)) (k : String) (v : α) :
    dget (dset m k v) k = some v := by
  induction m with
  | nil => simp [dget, dset]
  | cons p rest ih =>
    by_cases h : p.1 = k
    · simp [dget, dset, h]
    · simp [dget, dset, h, ih]

theorem dget_dset_ne {α : Type} (m : List (String × α)) (k k' : String) (v : α)
    (h : k' ≠ k) : dget (dset m k v) k' = dget m k' := by
  induction m with
  | nil => simp [dget, dset, Ne.symm h]
  | cons p rest ih =>
    by_cases hp : p.1 = k
    · simp only [dset, if_pos hp, dget]
      rw [if_neg (fun hh => h hh.symm), if_neg (by rw [hp]; exact fun hh => h hh.symm)]
    · simp only [dset, if_neg hp, dget]
      by_cases hp' : p.1 = k'
      · simp [hp']
      · simp [hp', ih]

theorem dget_dpop_self {α : Type} (m : List (String × α)) (k : String) :
    dget (dpop m k) k = none := by
  induction m with
  | nil => simp [dget, dpop]
  | cons p rest ih =>
    by_cases h : p.1 = k
    · simp [dpop, h, ih]
    · simp [dpop, dget, h, ih]

theorem dget_dpop_ne {α : Type} (m : List (String × α)) (k k' : String)
    (h : k' ≠ k) : dget (dpop m k) k' = dget m k' := by
  induction m with
  | nil => simp [dget, dpop]
  | cons p rest ih =>
    by_cases hp : p.1 = k
    · rw [dpop, if_pos hp, ih, dget, if_neg (by rw [hp]; exact fun hh => h hh.symm)]
    · rw [dpop, if_neg hp, dget, dget]
      by_cases hp' : p.1 = k'
      · simp [hp']
      · simp [hp', ih]

/-! ## Exit strategies: shared P&L formula (`strategies/base.py`) -/

/-- Embeds `ExitStrategy._calc_pnl_percent`: guarded against non-positive
capital or entry, otherwise `((current - entry) * (capital / entry) / capital) * 100`.
The `side` argument is accepted and ignored, as in the source. -/
def calcPnlPercent (entry current capital : ℚ) (side : String) : ℚ :=
  if capital ≤ 0 ∨ entry ≤ 0 then 0
  else
    let pnl := (current - entry) * (capital / entry)
    pnl / capital * 100

/-! ## RiskManager (`risk_manager.py`) -/

/-- Embeds `RiskConfig` with its source defaults. -/
structure RiskConfig where
  max_position_size : ℚ := 100
  max_portfolio_risk_percent : ℚ := 2
  max_daily_loss : ℚ := 200
  max_drawdown_percent : ℚ := 10
  max_open_positions : ℤ := 10
  enabled : Bool := true
deriving DecidableEq

/-- Mutable state of a `RiskManager` instance: the daily P&L accumulator and
the date it belongs to (dates as integers). -/
structure RiskState where
  daily_pnl : ℚ := 0
  current_date : ℤ := 0
deriving DecidableEq

/-- Embeds the result dataclass `TradeValidationResult` (warnings are never
populated by the source and are omitted). -/
structure TradeValidationResult where
  can_trade : Bool
  errors : List String
deriving DecidableEq

/-- Embeds `RiskManager.validate_position_size`.  The numeric `:.2f`
formatting of the source's messages is elided; the messages still identify
which check produced them. -/
def validatePositionSize (cfg : RiskConfig) (size_usd capital : ℚ) : Bool × String :=
  if ¬cfg.enabled then (true, "")
  else if size_usd > cfg.max_position_size then
    (false, "Position size exceeds max")
  else if capital > 0 ∧ size_usd > capital * (cfg.max_portfolio_risk_percent / 100) then
    (false, "Position size exceeds portfolio risk limit")
  else (true, "")

/-- Embeds `RiskManager._check_date_rollover`, with today's date passed in. -/
def checkDateRollover (st : RiskState) (today : ℤ) : RiskState :=
  if today ≠ st.current_date then { daily_pnl := 0, current_date := today }
  else st

/-- Embeds `RiskManager.record_daily_pnl`. -/
def recordDailyPnl (st : RiskState) (today : ℤ) (pnl : ℚ) : RiskState :=
  let st1 := checkDateRollover st today
  { st1 with daily_pnl := st1.daily_pnl + pnl }

/-- Embeds `RiskManager.validate_daily_loss`; returns the (possibly
rolled-over) state alongside the verdict. -/
def validateDailyLoss (cfg : RiskConfig) (st : RiskState) (today : ℤ) :
    RiskState × Bool × String :=
  if ¬cfg.enabled then (st, true, "")
  else
    let st1 := checkDateRollover st today
    if st1.daily_pnl < 0 ∧ |st1.daily_pnl| ≥ cfg.max_daily_loss then
      (st1, false, "Daily loss limit reached")
    else (st1, true, "")

/-- Embeds `RiskManager.validate_drawdown`. -/
def validateDrawdown (cfg : RiskConfig) (current_equity peak_equity : ℚ) : Bool × String :=
  if ¬cfg.enabled then (true, "")
  else if peak_equity ≤ 0 then (true, "")
  else if (peak_equity - current_equity) / peak_equity * 100 ≥ cfg.max_drawdown_percent then
    (false, "Max drawdown exceeded")
  else (true, "")

/-- Embeds `RiskManager.validate_open_positions`. -/
def validateOpenPositions (cfg : RiskConfig) (current_count : ℤ) : Bool × String :=
  if ¬cfg.enabled then (true, "")
  else if current_count ≥ cfg.max_open_positions then (false, "Max open positions reached")
  else (true, "")

/-- Embeds `RiskManager.validate_trade`: runs all four checks in order,
appending each failure message, with `can_trade = (len(errors) == 0)`. -/
def validateTrade (cfg : RiskConfig) (st : RiskState) (today : ℤ)
    (size_usd capital current_equity peak_equity : ℚ) (open_position_count : ℤ) :
    RiskState × TradeValidationResult :=
  let r1 := validatePositionSize cfg size_usd capital
  let errors1 := if r1.1 then [] else [r1.2]
  let r2 := validateDailyLoss cfg st today
  let errors2 := if r2.2.1 then errors1 else errors1 ++ [r2.2.2]
  let r3 := validateDrawdown cfg current_equity peak_equity
  let errors3 := if r3.1 then errors2 else errors2 ++ [r3.2]
  let r4 := validateOpenPositions cfg open_position_count
  let errors4 := if r4.1 then errors3 else errors3 ++ [r4.2]
  (r2.1, { can_trade := errors4.length == 0, errors := errors4 })

/-- C2: `validate_trade` has `can_trade` true iff its error list is empty, and
the number of errors equals the number of the four individual checks
(position size, daily loss, drawdown, open-position count) that fail; all
four are evaluated with no short-circuit. -/
theorem validate_trade_no_short_circuit (cfg : RiskConfig) (st : RiskState) (today : ℤ)
    (size_usd capital current_equity peak_equity : ℚ) (open_position_count : ℤ) :
    ((validateTrade cfg st today size_usd capital current_equity peak_equity
        open_position_count).2.can_trade = true
      ↔ (validateTrade cfg st today size_usd capital current_equity peak_equity
        open_position_count).2.errors = []) ∧
    (validateTrade cfg st today size_usd capital current_equity peak_equity
        open_position_count).2.errors.length =
      ((if (validatePositionSize cfg size_usd capital).1 then 0 else 1) +
       (if (validateDailyLoss cfg st today).2.1 then 0 else 1) +
       (if (validateDrawdown cfg current_equity peak_equity).1 then 0 else 1) +
       (if (validateOpenPositions cfg open_position_count).1 then 0 else 1)) := by
  unfold validateTrade
  rcases validatePositionSize cfg size_usd capital with ⟨v1, e1⟩
  rcases validateDailyLoss cfg st today with ⟨st2, v2, e2⟩
  rcases validateDrawdown cfg current_equity peak_equity with ⟨v3, e3⟩
  rcases validateOpenPositions cfg open_position_count with ⟨v4, e4⟩
  cases v1 <;> cases v2 <;> cases v3 <;> cases v4 <;> simp

/-- C7: for positive entry price and capital the computed pnl% equals
`(current - entry) / entry * 100`, by the same formula whatever the side. -/
theorem pnl_percent_formula (entry current capital : ℚ) (side side2 : String)
    (hentry : 0 < entry) (hcap : 0 < capital) :
    calcPnlPercent entry current capital side = (current - entry) / entry * 100 ∧
    calcPnlPercent entry current capital side = calcPnlPercent entry current capital side2 := by
  have hguard : ¬(capital ≤ 0 ∨ entry ≤ 0) := by
    push_neg
    exact ⟨hcap, hentry⟩
  refine ⟨?_, rfl⟩
  simp only [calcPnlPercent, if_neg hguard]
  field_simp
  ring

theorem pnl_percent_formula_witness :
    (0:ℚ) < 1/2 ∧ (0:ℚ) < 100 ∧
    calcPnlPercent (1/2) (3/5) 100 "Yes" = (3/5 - 1/2) / (1/2) * 100 ∧
    calcPnlPercent (1/2) (3/5) 100 "Yes" = calcPnlPercent (1/2) (3/5) 100 "No" :=
  ⟨by norm_num, by norm_num,
    (pnl_percent_formula (1/2) (3/5) 100 "Yes" "No" (by norm_num) (by norm_num)).1,
    (pnl_percent_formula (1/2) (3/5) 100 "Yes" "No" (by norm_num) (by norm_num)).2⟩

/-- C10: the pnl computation is total on degenerate snapshots: with
`capital <= 0` or `entry <= 0` it returns exactly 0, so with positive
take-profit and stop-loss thresholds the value it supplies can trigger
neither. -/
theorem pnl_percent_degenerate_total (entry current capital : ℚ) (side : String)
    (h : capital ≤ 0 ∨ entry ≤ 0) :
    calcPnlPercent entry current capital side = 0 ∧
    (∀ tp : ℚ, 0 < tp → ¬(calcPnlPercent entry current capital side ≥ tp)) ∧
    (∀ sl : ℚ, 0 < sl → ¬(calcPnlPercent entry current capital side ≤ -sl)) := by
  have h0 : calcPnlPercent entry current capital side = 0 := by
    simp only [calcPnlPercent, if_pos h]
  refine ⟨h0, ?_, ?_⟩ <;> intro t ht hc <;> rw [h0] at hc <;> linarith

theorem pnl_percent_degenerate_total_witness :
    calcPnlPercent 1 2 0 "Yes" = 0 ∧
    ¬(calcPnlPercent 1 2 0 "Yes" ≥ 5) ∧
    ¬(calcPnlPercent 1 2 0 "Yes" ≤ -5) :=
  ⟨(pnl_percent_degenerate_total 1 2 0 "Yes" (Or.inl le_rfl)).1,
   (pnl_percent_degenerate_total 1 2 0 "Yes" (Or.inl le_rfl)).2.1 5 (by norm_num),
   (pnl_percent_degenerate_total 1 2 0 "Yes" (Or.inl le_rfl)).2.2 5 (by norm_num)⟩

/-! ## Exit strategies: position view and runtime state -/

/-- Values stored in the strategies' `_high_water_mark` dict: floats, plus
the legacy partial-exit flag that the source stores as `True` under the
derived key `"<id>_partial"`. -/
inductive HVal where
  | num (q : ℚ)
  | flag (b : Bool)
deriving DecidableEq

/-- Numeric view of an `HVal`; Python booleans behave as 0/1 in arithmetic. -/
def HVal.toQ : HVal → ℚ
  | num q => q
  | flag b => if b then 1 else 0

/-- The position snapshot dict handed to `should_exit`, already reduced to
the fields the strategies read (`created_at` parsed to a timestamp in hours,
`none` when absent or unparseable). -/
structure PositionView where
  id : String
  entry_price : ℚ
  capital_allocated : Option ℚ
  size : ℚ
  side : String := "Yes"
  source : String := ""
  created_at : Option ℚ := none
deriving DecidableEq

/-- The source's `position.get("capital_allocated") or position.get("size", 0)`:
Python `or` falls back to `size` when `capital_allocated` is falsy. -/
def PositionView.capital (p : PositionView) : ℚ :=
  match p.capital_allocated with
  | some c => if c ≠ 0 then c else p.size
  | none => p.size

/-- The high-water mark after the tracking step of `should_exit`: first
observation stores `pnl_pct`, later ones `max(hwm[pid], pnl_pct)`. -/
def updatedHigh (hwm : List (String × HVal)) (pid : String) (pnl_pct : ℚ) : ℚ :=
  match dget hwm pid with
  | none => pnl_pct
  | some v => max v.toQ pnl_pct

/-! ## CustomStrategy (`strategies/custom.py`) -/

/-- Embeds the configuration a `CustomStrategy` is constructed with. -/
structure CustomStrategy where
  strategy_id : ℤ := 1
  name : String := ""
  take_profit : ℚ
  stop_loss : ℚ
  trailing_stop : Option ℚ := none
  partial_exit_percent : Option ℚ := none
  partial_exit_threshold : Option ℚ := none
deriving DecidableEq

/-- Embeds `CustomStrategy._cleanup_position`: pops both the high-water mark
and the legacy `"<id>_partial"` flag. -/
def customCleanup (hwm : List (String × HVal)) (pid : String) : List (String × HVal) :=
  dpop (dpop hwm pid) (pid ++ "_partial")

/-- The partial-exit tail of `CustomStrategy.should_exit` (reached when no
full exit fired): a single legacy partial exit guarded by a fired flag. -/
def customPartial (s : CustomStrategy) (hwm : List (String × HVal)) (pid : String)
    (pnl_pct : ℚ) : List (String × HVal) × Bool × String × ℚ :=
  if truthyQ s.partial_exit_percent ∧ truthyQ s.partial_exit_threshold then
    if pnl_pct ≥ s.partial_exit_threshold.getD 0 then
      if dget hwm (pid ++ "_partial") = none then
        (dset hwm (pid ++ "_partial") (HVal.flag true), true, "partial_take_profit",
          s.partial_exit_percent.getD 0 / 100)
      else (hwm, false, "", 0)
    else (hwm, false, "", 0)
  else (hwm, false, "", 0)

/-- Embeds `CustomStrategy.should_exit`; the `_high_water_mark` dict is
passed and returned explicitly. -/
def customShouldExit (s : CustomStrategy) (hwm0 : List (String × HVal))
    (pos : PositionView) (current_price : ℚ) :
    List (String × HVal) × Bool × String × ℚ :=
  let pnl_pct := calcPnlPercent pos.entry_price current_price pos.capital pos.side
  let high := updatedHigh hwm0 pos.id pnl_pct
  let hwm := dset hwm0 pos.id (HVal.num high)
  if pnl_pct ≥ s.take_profit then (customCleanup hwm pos.id, true, "take_profit", 1)
  else if pnl_pct ≤ -s.stop_loss then (customCleanup hwm pos.id, true, "stop_loss", 1)
  else if truthyQ s.trailing_stop ∧ 0 < high ∧ high - pnl_pct ≥ s.trailing_stop.getD 0 then
    (customCleanup hwm pos.id, true, "trailing_stop", 1)
  else customPartial s hwm pos.id pnl_pct

/-! ## AdvancedStrategy (`strategies/advanced.py`) -/

/-- Embeds the dataclass `AdvancedStrategyConfig`. -/
structure AdvancedStrategyConfig where
  id : ℤ := 1
  name : String := ""
  description : Option String := none
  default_take_profit : ℚ
  default_stop_loss : ℚ
  default_trailing_stop : Option ℚ := none
  dynamic_trailing_enabled : Bool
  dynamic_trailing_base : ℚ
  dynamic_trailing_tight : ℚ
  dynamic_trailing_threshold : ℚ
  time_trailing_enabled : Bool
  time_trailing_start_hours : ℚ
  time_trailing_max_hours : ℚ
  time_trailing_tight : ℚ
  partial_exit_percent : Option ℚ := none
  partial_exit_threshold : Option ℚ := none
  min_source_win_rate : Option ℚ := none
  min_source_profit_factor : Option ℚ := none
  min_source_trades : Option ℤ := none
  lookback_days : ℤ := 30
  enabled : Bool := true
deriving DecidableEq

/-- Embeds the dataclass `PartialExitConfig`. -/
structure PartialExitConfig where
  exit_order : ℤ
  exit_percent : ℚ
  threshold : ℚ
deriving DecidableEq

/-- Embeds the dataclass `SourceParams`. -/
structure SourceParams where
  source : String
  take_profit : Option ℚ := none
  stop_loss : Option ℚ := none
  trailing_stop : Option ℚ := none
  position_size_multiplier : ℚ := 1
deriving DecidableEq

/-- The per-instance runtime maps of an `AdvancedStrategy`:
`_high_water_mark`, `_position_created_at` and `_partial_exits_fired`
(sets modelled as duplicate-free lists). -/
structure AdvancedState where
  hwm : List (String × HVal) := []
  created_at : List (String × ℚ) := []
  fired : List (String × List ℤ) := []
deriving DecidableEq

/-- An `AdvancedStrategy` object after `__init__`. -/
structure AdvancedStrategy where
  config : AdvancedStrategyConfig
  name : String
  sources : List (String × SourceParams)
  partial_exits : List PartialExitConfig
deriving DecidableEq

/-- Embeds `AdvancedStrategy.__init__`: prefixes the name, keys the sources
by name (later duplicates overwrite, as in a Python dict comprehension) and
sorts the partial exits ascending by threshold.  Python's `sorted` is
stable, and so is `List.insertionSort`. -/
def mkAdvancedStrategy (config : AdvancedStrategyConfig) (sources : List SourceParams)
    (partial_exits : List PartialExitConfig) : AdvancedStrategy :=
  { config := config
    name := if config.name.startsWith "advanced_" then config.name
            else "advanced_" ++ config.name
    sources := sources.foldl (fun m s => dset m s.source s) []
    partial_exits := List.insertionSort (fun a b => a.threshold ≤ b.threshold) partial_exits }

/-- Embeds `AdvancedStrategy.get_params_for_source`: per-source overrides
with fallback to the strategy defaults. -/
def getParamsForSource (a : AdvancedStrategy) (source : String) : ℚ × ℚ × Option ℚ :=
  match dget a.sources source with
  | some s =>
    (s.take_profit.getD a.config.default_take_profit,
     s.stop_loss.getD a.config.default_stop_loss,
     match s.trailing_stop with
     | some t => some t
     | none => a.config.default_trailing_stop)
  | none =>
    (a.config.default_take_profit, a.config.default_stop_loss,
     a.config.default_trailing_stop)

/-- Embeds `AdvancedStrategy.get_size_multiplier`. -/
def getSizeMultiplier (a : AdvancedStrategy) (source : String) : ℚ :=
  match dget a.sources source with
  | some s => s.position_size_multiplier
  | none => 1

/-- Embeds `AdvancedStrategy._calc_dynamic_trail`.  (When
`dynamic_trailing_threshold = 100` and the captured share reaches 100 the
source divides by zero; rational division yields 0 there instead.) -/
def calcDynamicTrail (cfg : AdvancedStrategyConfig) (entry_price current_price : ℚ)
    (side : String) : ℚ :=
  if ¬cfg.dynamic_trailing_enabled then cfg.dynamic_trailing_base
  else
    let up : ℚ × ℚ :=
      if side = "Yes" then (1 - entry_price, current_price - entry_price)
      else (entry_price, entry_price - current_price)
    if up.1 ≤ 0 then cfg.dynamic_trailing_tight
    else
      let upside_captured_pct := max 0 (min 100 (up.2 / up.1 * 100))
      if upside_captured_pct < cfg.dynamic_trailing_threshold then
        cfg.dynamic_trailing_base
      else
        cfg.dynamic_trailing_base -
          (cfg.dynamic_trailing_base - cfg.dynamic_trailing_tight) *
            ((upside_captured_pct - cfg.dynamic_trailing_threshold) /
              (100 - cfg.dynamic_trailing_threshold))

/-- Embeds `AdvancedStrategy._calc_time_trail` with the clock passed in;
falls back to the cached creation time when the view carries none. -/
def calcTimeTrail (cfg : AdvancedStrategyConfig) (pid : String)
    (created_at : Option ℚ) (cache : List (String × ℚ)) (now : ℚ) : ℚ :=
  if ¬cfg.time_trailing_enabled then cfg.dynamic_trailing_base
  else
    let ca := match created_at with
      | some c => some c
      | none => dget cache pid
    match ca with
    | none => cfg.dynamic_trailing_base
    | some c =>
      let hold_hours := now - c
      if hold_hours < cfg.time_trailing_start_hours then cfg.dynamic_trailing_base
      else if hold_hours ≥ cfg.time_trailing_max_hours then cfg.time_trailing_tight
      else
        cfg.dynamic_trailing_base -
          (cfg.dynamic_trailing_base - cfg.time_trailing_tight) *
            ((hold_hours - cfg.time_trailing_start_hours) /
              (cfg.time_trailing_max_hours - cfg.time_trailing_start_hours))

/-- Embeds `AdvancedStrategy._cleanup_position`: pops the position id from
all three runtime maps.  Unlike `CustomStrategy._cleanup_position`, it does
not pop the legacy `"<id>_partial"` key from the high-water-mark dict. -/
def advancedCleanup (st : AdvancedState) (pid : String) : AdvancedState :=
  { hwm := dpop st.hwm pid
    created_at := dpop st.created_at pid
    fired := dpop st.fired pid }

/-- The `created_at` caching step at the top of
`AdvancedStrategy.should_exit`: cache the view's creation time on first
sight. -/
def advCache (st : AdvancedState) (pos : PositionView) : AdvancedState :=
  match pos.created_at with
  | some c =>
    if dget st.created_at pos.id = none then
      { st with created_at := dset st.created_at pos.id c }
    else st
  | none => st

/-- The ordered partial-exit scan of `AdvancedStrategy.should_exit`: the
first config not yet fired whose threshold is reached. -/
def scanPartials (configs : List PartialExitConfig) (fired : List ℤ) (pnl_pct : ℚ) :
    Option PartialExitConfig :=
  match configs with
  | [] => none
  | c :: rest =>
    if c.exit_order ∈ fired then scanPartials rest fired pnl_pct
    else if pnl_pct ≥ c.threshold then some c
    else scanPartials rest fired pnl_pct

/-- Python `set.add` on a set modelled as a duplicate-free list. -/
def setAdd (s : List ℤ) (x : ℤ) : List ℤ :=
  if x ∈ s then s else s ++ [x]

/-- The fired partial-exit ids recorded for a position
(`_partial_exits_fired` defaults to the empty set). -/
def firedOf (st : AdvancedState) (pid : String) : List ℤ :=
  (dget st.fired pid).getD []

/-- The legacy single partial-exit fallback at the bottom of
`AdvancedStrategy.should_exit`, flagged through the high-water-mark dict. -/
def advancedLegacyPartial (cfg : AdvancedStrategyConfig) (st : AdvancedState)
    (pid : String) (pnl_pct : ℚ) : AdvancedState × Bool × String × ℚ :=
  if truthyQ cfg.partial_exit_percent ∧ truthyQ cfg.partial_exit_threshold then
    if pnl_pct ≥ cfg.partial_exit_threshold.getD 0 then
      if dget st.hwm (pid ++ "_partial") = none then
        ({ st with hwm := dset st.hwm (pid ++ "_partial") (HVal.flag true) },
         true, "partial_take_profit", cfg.partial_exit_percent.getD 0 / 100)
      else (st, false, "", 0)
    else (st, false, "", 0)
  else (st, false, "", 0)

/-- The lazy `set()` initialisation of the fired map
(`if position_id not in self._partial_exits_fired: ... = set()`). -/
def advInitFired (st : AdvancedState) (pid : String) : AdvancedState :=
  if dget st.fired pid = none then { st with fired := dset st.fired pid [] } else st

/-- The scan-and-fire step over the (already initialised) fired map. -/
def advancedPartialsScan (a : AdvancedStrategy) (st : AdvancedState) (pid : String)
    (pnl_pct : ℚ) : AdvancedState × Bool × String × ℚ :=
  match scanPartials a.partial_exits (firedOf st pid) pnl_pct with
  | some c =>
    ({ st with fired := dset st.fired pid (setAdd (firedOf st pid) c.exit_order) },
     true, "partial_take_profit_" ++ toString c.exit_order, c.exit_percent / 100)
  | none => advancedLegacyPartial a.config st pid pnl_pct

/-- The multi-level partial-exit branch of `AdvancedStrategy.should_exit`. -/
def advancedPartials (a : AdvancedStrategy) (st : AdvancedState) (pid : String)
    (pnl_pct : ℚ) : AdvancedState × Bool × String × ℚ :=
  if a.partial_exits ≠ [] then advancedPartialsScan a (advInitFired st pid) pid pnl_pct
  else advancedLegacyPartial a.config st pid pnl_pct

/-- The runtime state after the caching and high-water-mark tracking steps
at the top of `should_exit`. -/
def advPre (st : AdvancedState) (pos : PositionView) (pnl_pct : ℚ) : AdvancedState :=
  { advCache st pos with
    hwm := dset (advCache st pos).hwm pos.id
      (HVal.num (updatedHigh (advCache st pos).hwm pos.id pnl_pct)) }

/-- Embeds `AdvancedStrategy.should_exit`, with the runtime maps passed and
returned explicitly and the clock as a parameter. -/
def advancedShouldExit (a : AdvancedStrategy) (st0 : AdvancedState)
    (pos : PositionView) (current_price : ℚ) (now : ℚ) :
    AdvancedState × Bool × String × ℚ :=
  let params := getParamsForSource a pos.source
  let pnl_pct := calcPnlPercent pos.entry_price current_price pos.capital pos.side
  let high := updatedHigh (advCache st0 pos).hwm pos.id pnl_pct
  let st := advPre st0 pos pnl_pct
  if pnl_pct ≥ params.1 then (advancedCleanup st pos.id, true, "take_profit", 1)
  else if pnl_pct ≤ -params.2.1 then (advancedCleanup st pos.id, true, "stop_loss", 1)
  else
    let price_trail := calcDynamicTrail a.config pos.entry_price current_price pos.side
    let time_trail := calcTimeTrail a.config pos.id pos.created_at
      (advCache st0 pos).created_at now
    if 0 < high ∧ high - pnl_pct ≥ min price_trail time_trail then
      (advancedCleanup st pos.id, true,
       if price_trail ≤ time_trail then "dynamic_trailing" else "time_trailing", 1)
    else advancedPartials a st pos.id pnl_pct

/-! ## Position records (`models/position.py`, fields used by the core) -/

/-- Embeds a `Position` row; optional columns are `Option`s. -/
structure Position where
  id : ℤ := 0
  signal_id : Option String := none
  strategy_id : Option ℤ := none
  strategy_name : Option String := none
  market_id : Option String := none
  token_id : Option String := none
  market_question : Option String := none
  side : Option String := none
  status : String := "open"
  trading_mode : String := "paper"
  entry_price : Option ℚ := none
  current_price : Option ℚ := none
  exit_price : Option ℚ := none
  size : Option ℚ := none
  shares_ordered : Option ℚ := none
  shares_filled : Option ℚ := none
  average_fill_price : Option ℚ := none
  entry_order_id : Option String := none
  entry_order_status : Option String := none
  exit_order_id : Option String := none
  exit_order_status : Option String := none
  last_order_error : Option String := none
  realized_pnl : Option ℚ := none
  realized_pnl_percent : Option ℚ := none
  unrealized_pnl : Option ℚ := none
  unrealized_pnl_percent : Option ℚ := none
  source : Option String := none
  opened_at : Option String := none
  closed_at : Option String := none
deriving DecidableEq

/-! ## StrategyExecutor exit step (`executor.py`) -/

/-- The report dict `_execute_exit` returns (common fields of the full and
partial cases). -/
structure ExitReport where
  position_id : ℤ
  action : String
  reason : String
  exit_price : ℚ
  pnl : ℚ
deriving DecidableEq

/-- Embeds `StrategyExecutor._execute_exit`.  The third component logs every
`RiskManager.record_daily_pnl` notification the method makes: the source
contains no such call, so the log is `[]` on every path. -/
def executeExit (position : Position) (exit_price : ℚ) (reason : String)
    (exit_percent : ℚ) (nowIso : String) : Position × ExitReport × List ℚ :=
  let entry := position.entry_price.getD 0
  let size := position.size.getD 0
  if exit_percent ≥ 1 then
    let pnl := if entry > 0 then (exit_price - entry) * (size / entry) else 0
    let pnl_pct := if size > 0 then pnl / size * 100 else 0
    ({ position with
        status := "closed"
        exit_price := some exit_price
        current_price := some exit_price
        realized_pnl := some pnl
        realized_pnl_percent := some pnl_pct
        unrealized_pnl := some 0
        unrealized_pnl_percent := some 0
        closed_at := some nowIso },
     { position_id := position.id, action := "close", reason := reason,
       exit_price := exit_price, pnl := pnl },
     [])
  else
    let exit_size := size * exit_percent
    let pnl := if entry > 0 then (exit_price - entry) * (exit_size / entry) else 0
    ({ position with
        size := some (size - exit_size)
        realized_pnl := some (position.realized_pnl.getD 0 + pnl) },
     { position_id := position.id, action := "partial_exit", reason := reason,
       exit_price := exit_price, pnl := pnl },
     [])

/-! ## OrderMonitor (`order_monitor.py`) -/

/-- The gateway's reply to `get_order_status`. -/
structure OrderStatusResult where
  success : Bool
  status : String := ""
  filled_size : Option ℚ := none
  average_price : Option ℚ := none
deriving DecidableEq

/-- The change dicts `_check_position_orders` reports. -/
inductive MonitorEvent where
  | entry_filled (shares price : Option ℚ)
  | entry_failed (status : String)
  | exit_filled (price : Option ℚ)
  | exit_failed (status : String)
deriving DecidableEq

/-- Order statuses the monitor treats as filled. -/
def fillStatuses : List String := ["filled", "MATCHED"]

/-- Order statuses the monitor treats as terminally failed. -/
def failStatuses : List String :=
  ["cancelled", "CANCELLED", "failed", "FAILED", "expired", "EXPIRED"]

/-- Python `a or b` on optional numbers (`0` is falsy). -/
def orQ (a b : Option ℚ) : Option ℚ :=
  match a with
  | some x => if x ≠ 0 then some x else b
  | none => b

/-- Embeds `OrderMonitor._check_position_orders` with `get_order_status`
passed as an oracle.  The source's two sequential `if` blocks are mutually
exclusive (the first requires status "pending" and never sets "closing"),
so they are embedded as one conditional chain. -/
def checkPositionOrders (position : Position) (getStatus : String → OrderStatusResult)
    (nowIso : String) : Position × Option MonitorEvent :=
  if position.status = "pending" ∧ truthyS position.entry_order_id then
    let result := getStatus (position.entry_order_id.getD "")
    if result.success then
      let p1 := { position with entry_order_status := some result.status }
      if result.status ∈ fillStatuses then
        let p2 := { p1 with
          status := "open"
          shares_filled := orQ result.filled_size p1.shares_ordered
          average_fill_price := result.average_price }
        let p3 := match result.average_price with
          | some ap => if ap ≠ 0 then { p2 with entry_price := some ap } else p2
          | none => p2
        (p3, some (MonitorEvent.entry_filled p3.shares_filled
          (orQ p3.average_fill_price p3.entry_price)))
      else if result.status ∈ failStatuses then
        ({ p1 with
            status := "failed"
            last_order_error := some ("Entry order " ++ result.status) },
         some (MonitorEvent.entry_failed result.status))
      else (p1, none)
    else (position, none)
  else if position.status = "closing" ∧ truthyS position.exit_order_id then
    let result := getStatus (position.exit_order_id.getD "")
    if result.success then
      let p1 := { position with exit_order_status := some result.status }
      if result.status ∈ fillStatuses then
        let p2 := { p1 with status := "closed", closed_at := some nowIso }
        let p3 := match result.average_price with
          | some ap => if ap ≠ 0 then { p2 with exit_price := some ap } else p2
          | none => p2
        (p3, some (MonitorEvent.exit_filled (orQ result.average_price p3.exit_price)))
      else if result.status ∈ failStatuses then
        ({ p1 with
            status := "open"
            exit_order_id := none
            exit_order_status := none
            last_order_error := some ("Exit order " ++ result.status) },
         some (MonitorEvent.exit_failed result.status))
      else (p1, none)
    else (position, none)
  else (position, none)

/-! ## PositionManager (`position_manager.py`) -/

/-- Embeds the `Signal` fields `open_position` consumes. -/
structure Signal where
  signal_id : String
  market_id : Option String := none
  token_id : Option String := none
  market_question : Option String := none
  side : String
  price_at_signal : Option ℚ := none
  source : Option String := none
deriving DecidableEq

/-- Embeds `PositionManager._get_existing_position`: `None` for a falsy
market id, else the open position on the same (market, side).  The source's
`scalar_one_or_none` returns the unique match (at most one open position
per (market, side) is an invariant); `find?` takes the first. -/
def getExistingPosition (db : List Position) (market_id : Option String)
    (side : String) : Option Position :=
  if ¬truthyS market_id then none
  else db.find? (fun p =>
    p.market_id == market_id && p.side == some side && p.status == "open")

/-- The `size = size or self.DEFAULT_POSITION_SIZE` step (Python `or`:
`None` and `0` fall back to the default 50). -/
def effSize (size_arg : Option ℚ) : ℚ :=
  match size_arg with
  | some s => if s ≠ 0 then s else 50
  | none => 50

/-- Embeds `PositionManager.open_position`.  The database is a list of
positions returned alongside the result; the risk-manager state, today's
date, the live-trading switch and the entry-order gateway round-trip
(`_execute_entry_order`) are parameters.  The capital/equity snapshot is
the source's hardcoded 10000. -/
def openPosition (rc : RiskConfig) (rs : RiskState) (today : ℤ) (db : List Position)
    (signal : Signal) (strategy_id : Option ℤ) (strategy_name : String)
    (size_arg : Option ℚ) (execute_order : Bool) (live_enabled : Bool)
    (entryExec : Position → Position) (newId : ℤ) (nowIso : String) :
    List Position × Option Position :=
  let size := effSize size_arg
  let open_count : ℤ := (db.filter (fun p => p.status == "open")).length
  let risk_result := (validateTrade rc rs today size 10000 10000 10000 open_count).2
  if ¬risk_result.can_trade then (db, none)
  else
    match getExistingPosition db signal.market_id signal.side with
    | some existing => (db, some existing)
    | none =>
      let is_live := live_enabled && execute_order && truthyS signal.token_id
      let entry_price := match signal.price_at_signal with
        | some p => if p ≠ 0 then p else 1/2
        | none => 1/2
      let shares := if entry_price > 0 then size / entry_price else 0
      let position : Position :=
        { id := newId
          signal_id := some signal.signal_id
          strategy_id := strategy_id
          strategy_name := some strategy_name
          market_id := signal.market_id
          token_id := signal.token_id
          market_question := signal.market_question
          side := some signal.side
          entry_price := some entry_price
          current_price := some entry_price
          size := some size
          status := if is_live then "pending" else "open"
          trading_mode := if is_live then "live" else "paper"
          shares_ordered := some shares
          shares_filled := some (if is_live then 0 else shares)
          unrealized_pnl := some 0
          unrealized_pnl_percent := some 0
          source := signal.source
          opened_at := some nowIso }
      let position := if is_live then entryExec position else position
      (db ++ [position], some position)

/-! ## Helper lemmas -/

theorem ne_append_partial_key (pid : String) : pid ≠ pid ++ "_partial" := by
  intro h
  have hl := congrArg String.length h
  rw [String.length_append] at hl
  have h8 : ("_partial" : String).length = 8 := rfl
  omega

theorem fail_not_fill {s : String} (h : s ∈ failStatuses) : s ∉ fillStatuses := by
  fin_cases h <;> decide

theorem getExistingPosition_spec (db : List Position) (mid : Option String)
    (side : String) (p : Position) (h : getExistingPosition db mid side = some p) :
    p ∈ db ∧ p.market_id = mid ∧ p.side = some side ∧ p.status = "open" := by
  unfold getExistingPosition at h
  by_cases ht : truthyS mid = true
  · rw [if_neg (by simp [ht])] at h
    have hmem := List.mem_of_find?_eq_some h
    have hp := List.find?_some h
    simp only [Bool.and_eq_true, beq_iff_eq] at hp
    exact ⟨hmem, hp.1.1, hp.1.2, hp.2⟩
  · rw [if_pos (by simp [ht])] at h
    exact absurd h (by simp)

/-! ## C1 -/

/-- C1: on a full close (`exit_fraction >= 1.0`) the executor's
`_execute_exit` marks the position closed but makes zero
`RiskManager.record_daily_pnl` notifications — not the exactly-one the
claim requires. -/
theorem executor_full_close_skips_record_daily_pnl (position : Position)
    (exit_price : ℚ) (reason : String) (exit_percent : ℚ) (nowIso : String)
    (hfull : exit_percent ≥ 1) :
    (executeExit position exit_price reason exit_percent nowIso).1.status = "closed" ∧
    (executeExit position exit_price reason exit_percent nowIso).2.2 = [] := by
  simp only [executeExit]
  rw [if_pos hfull]
  exact ⟨rfl, rfl⟩

def posC1 : Position :=
  { id := 7, status := "open", entry_price := some (1/2), size := some 100 }

theorem executor_full_close_skips_record_daily_pnl_witness :
    (executeExit posC1 (3/5) "take_profit" 1 "t").1.status = "closed" ∧
    (executeExit posC1 (3/5) "take_profit" 1 "t").2.2 = [] :=
  executor_full_close_skips_record_daily_pnl posC1 (3/5) "take_profit" 1 "t" (by norm_num)

/-! ## C4 -/

def sC4 : CustomStrategy :=
  { take_profit := 50, stop_loss := 50, trailing_stop := some 5 }

def posC4 : PositionView :=
  { id := "1", entry_price := 1/2, capital_allocated := some 100, size := 100 }

/-- C4 counterexample: with trailing_stop = 5 the high-water mark is set to 0
by a first break-even evaluation; on the next evaluation pnl% = -10, so
`hwm - pnl% = 10 >= 5` while neither take-profit (50) nor stop-loss (50)
fires, yet `should_exit` returns no exit because the source additionally
requires `hwm > 0`. -/
theorem custom_trailing_requires_positive_hwm_cex :
    dget (customShouldExit sC4 [] posC4 (1/2)).1 "1" = some (HVal.num 0) ∧
    updatedHigh (customShouldExit sC4 [] posC4 (1/2)).1 "1"
        (calcPnlPercent (1/2) (9/20) 100 "Yes")
      - calcPnlPercent (1/2) (9/20) 100 "Yes" ≥ 5 ∧
    (customShouldExit sC4 (customShouldExit sC4 [] posC4 (1/2)).1 posC4 (9/20)).2 =
      (false, "", 0) := by
  norm_num [customShouldExit, customPartial, customCleanup, calcPnlPercent,
    updatedHigh, dget, dset, dpop, truthyQ, PositionView.capital, HVal.toQ,
    sC4, posC4]

/-- C4 amended: the trailing stop in `CustomStrategy.should_exit` returns a
full exit `(true, "trailing_stop", 1.0)` when neither take-profit nor
stop-loss fires, the trailing stop is configured (non-None, non-zero), the
updated high-water mark is positive — not merely ever set — and
`hwm - pnl% >= trailing_stop`. -/
theorem custom_trailing_stop_amended (s : CustomStrategy)
    (hwm : List (String × HVal)) (pos : PositionView) (current ts : ℚ)
    (hts : s.trailing_stop = some ts) (hts0 : ts ≠ 0)
    (htp : calcPnlPercent pos.entry_price current pos.capital pos.side < s.take_profit)
    (hsl : -s.stop_loss < calcPnlPercent pos.entry_price current pos.capital pos.side)
    (hhigh : 0 < updatedHigh hwm pos.id
      (calcPnlPercent pos.entry_price current pos.capital pos.side))
    (htrail : updatedHigh hwm pos.id
        (calcPnlPercent pos.entry_price current pos.capital pos.side)
      - calcPnlPercent pos.entry_price current pos.capital pos.side ≥ ts) :
    (customShouldExit s hwm pos current).2 = (true, "trailing_stop", 1) := by
  simp only [customShouldExit]
  rw [if_neg (not_le.mpr htp), if_neg (not_le.mpr (by linarith)),
    if_pos ⟨by simp [truthyQ, hts, hts0], hhigh, by rw [hts]; exact htrail⟩]

def hwmC4w : List (String × HVal) := [("1", HVal.num 10)]

theorem custom_trailing_stop_amended_witness :
    (customShouldExit sC4 hwmC4w posC4 (51/100)).2 = (true, "trailing_stop", 1) :=
  custom_trailing_stop_amended sC4 hwmC4w posC4 (51/100) 5 rfl (by norm_num)
    (by norm_num [calcPnlPercent, sC4, posC4, PositionView.capital])
    (by norm_num [calcPnlPercent, sC4, posC4, PositionView.capital])
    (by norm_num [calcPnlPercent, updatedHigh, dget, hwmC4w, posC4, PositionView.capital, HVal.toQ])
    (by norm_num [calcPnlPercent, updatedHigh, dget, hwmC4w, posC4, PositionView.capital, HVal.toQ])

/-! ## C8 -/

/-- C8: a live position in "closing" whose exit order the monitor observes
as cancelled/failed/expired is reverted to "open", its exit_order fields are
cleared and last_order_error records the failure. -/
theorem order_monitor_exit_failure_reverts (position : Position)
    (getStatus : String → OrderStatusResult) (nowIso oid : String)
    (hst : position.status = "closing") (hoid : position.exit_order_id = some oid)
    (hne : oid ≠ "") (hsucc : (getStatus oid).success = true)
    (hfail : (getStatus oid).status ∈ failStatuses) :
    (checkPositionOrders position getStatus nowIso).1.status = "open" ∧
    (checkPositionOrders position getStatus nowIso).1.exit_order_id = none ∧
    (checkPositionOrders position getStatus nowIso).1.exit_order_status = none ∧
    (checkPositionOrders position getStatus nowIso).1.last_order_error =
      some ("Exit order " ++ (getStatus oid).status) ∧
    (checkPositionOrders position getStatus nowIso).2 =
      some (MonitorEvent.exit_failed (getStatus oid).status) := by
  have hnp : ¬(position.status = "pending" ∧ truthyS position.entry_order_id = true) := by
    rw [hst]
    rintro ⟨h, -⟩
    exact absurd h (by decide)
  have hcl : position.status = "closing" ∧ truthyS position.exit_order_id = true := by
    rw [hst, hoid]
    exact ⟨rfl, by simp [truthyS, hne]⟩
  have hgd : position.exit_order_id.getD "" = oid := by rw [hoid]; rfl
  simp only [checkPositionOrders, hgd]
  rw [if_neg hnp, if_pos hcl, if_pos hsucc, if_neg (by simpa using fail_not_fill hfail),
    if_pos hfail]
  exact ⟨rfl, rfl, rfl, rfl, rfl⟩

def posC8 : Position :=
  { id := 3, status := "closing", trading_mode := "live", exit_order_id := some "o1" }

def gsC8 : String → OrderStatusResult := fun _ => { success := true, status := "cancelled" }

theorem order_monitor_exit_failure_reverts_witness :
    (checkPositionOrders posC8 gsC8 "t").1.status = "open" ∧
    (checkPositionOrders posC8 gsC8 "t").1.exit_order_id = none ∧
    (checkPositionOrders posC8 gsC8 "t").1.exit_order_status = none ∧
    (checkPositionOrders posC8 gsC8 "t").1.last_order_error =
      some ("Exit order " ++ (gsC8 "o1").status) ∧
    (checkPositionOrders posC8 gsC8 "t").2 =
      some (MonitorEvent.exit_failed (gsC8 "o1").status) :=
  order_monitor_exit_failure_reverts posC8 gsC8 "t" "o1" rfl rfl (by decide) rfl (by decide)

/-! ## C9 -/

def posC9 : Position :=
  { id := 1, market_id := none, side := some "BUY", status := "open",
    entry_price := some (1/2), size := some 50 }

def sigC9 : Signal :=
  { signal_id := "s1", market_id := none, side := "BUY", price_at_signal := some (1/2) }

/-- C9 counterexample: with a falsy (here None) market id the dedup lookup is
skipped entirely, so even though an open position for the same
(market_id, side) is in the store and risk validation passes, `open_position`
creates a second record instead of returning the existing one. -/
theorem open_position_dedup_cex :
    posC9.status = "open" ∧ posC9.market_id = sigC9.market_id ∧
    posC9.side = some sigC9.side ∧
    (openPosition {} {} 0 [posC9] sigC9 none "signal_trader" (some 50) true false
      (fun p => p) 2 "t").1.length = 2 ∧
    (openPosition {} {} 0 [posC9] sigC9 none "signal_trader" (some 50) true false
      (fun p => p) 2 "t").2 ≠ some posC9 := by
  norm_num [openPosition, effSize, validateTrade, validatePositionSize,
    validateDailyLoss, validateDrawdown, validateOpenPositions, checkDateRollover,
    getExistingPosition, truthyS, posC9, sigC9, Position.mk.injEq]

/-- C9 amended: provided the signal carries a truthy (non-None, non-empty)
market id, a call that passes risk validation while an open position exists
for the same (market_id, side) returns that position and leaves the store
unchanged. -/
theorem open_position_dedup_amended (rc : RiskConfig) (rs : RiskState) (today : ℤ)
    (db : List Position) (signal : Signal) (strategy_id : Option ℤ)
    (strategy_name : String) (size_arg : Option ℚ) (execute_order live_enabled : Bool)
    (entryExec : Position → Position) (newId : ℤ) (nowIso : String) (p : Position)
    (hrisk : (validateTrade rc rs today (effSize size_arg) 10000 10000 10000
      ((db.filter (fun q => q.status == "open")).length : ℤ)).2.can_trade = true)
    (hfind : getExistingPosition db signal.market_id signal.side = some p) :
    openPosition rc rs today db signal strategy_id strategy_name size_arg
      execute_order live_enabled entryExec newId nowIso = (db, some p) ∧
    p ∈ db ∧ p.market_id = signal.market_id ∧ p.side = some signal.side ∧
    p.status = "open" := by
  obtain ⟨hm, h1, h2, h3⟩ := getExistingPosition_spec db signal.market_id signal.side p hfind
  refine ⟨?_, hm, h1, h2, h3⟩
  simp only [openPosition]
  rw [if_neg (by simp [hrisk]), hfind]

def pC9w : Position :=
  { id := 1, market_id := some "m1", side := some "BUY", status := "open",
    entry_price := some (1/2), size := some 50 }

def sigC9w : Signal :=
  { signal_id := "s1", market_id := some "m1", side := "BUY",
    price_at_signal := some (1/2) }

theorem open_position_dedup_amended_witness :
    openPosition {} {} 0 [pC9w] sigC9w none "signal_trader" (some 50) true false
      (fun p => p) 2 "t" = ([pC9w], some pC9w) ∧
    pC9w ∈ [pC9w] ∧ pC9w.market_id = sigC9w.market_id ∧
    pC9w.side = some sigC9w.side ∧ pC9w.status = "open" :=
  open_position_dedup_amended {} {} 0 [pC9w] sigC9w none "signal_trader" (some 50)
    true false (fun p => p) 2 "t" pC9w
    (by norm_num [effSize, validateTrade, validatePositionSize, validateDailyLoss,
      validateDrawdown, validateOpenPositions, checkDateRollover, pC9w])
    (by
      norm_num [getExistingPosition, truthyS, pC9w, sigC9w]
      intro h
      exact absurd h (by decide))

/-! ## C3 -/

theorem dget_customCleanup_id (m : List (String × HVal)) (pid : String) :
    dget (customCleanup m pid) pid = none := by
  unfold customCleanup
  rw [dget_dpop_ne _ _ _ (ne_append_partial_key pid)]
  exact dget_dpop_self m pid

theorem dget_customCleanup_partial_key (m : List (String × HVal)) (pid : String) :
    dget (customCleanup m pid) (pid ++ "_partial") = none :=
  dget_dpop_self _ _

theorem partial_reason_short (s t : String) (ht : t.length < 20) :
    ¬("partial_take_profit_" ++ s = t) := by
  intro h
  have hl := congrArg String.length h
  rw [String.length_append] at hl
  have h20 : ("partial_take_profit_" : String).length = 20 := rfl
  omega

theorem customPartial_reason (s : CustomStrategy) (hwm : List (String × HVal))
    (pid : String) (pnl : ℚ) (r : String) (f : ℚ)
    (h : (customPartial s hwm pid pnl).2 = (true, r, f)) :
    r = "partial_take_profit" := by
  unfold customPartial at h
  split_ifs at h <;> simp only [Prod.mk.injEq] at h
  · exact h.2.1.symm
  all_goals exact absurd h.1 Bool.false_ne_true

theorem advancedLegacyPartial_reason (cfg : AdvancedStrategyConfig)
    (st : AdvancedState) (pid : String) (pnl : ℚ) (r : String) (f : ℚ)
    (h : (advancedLegacyPartial cfg st pid pnl).2 = (true, r, f)) :
    r = "partial_take_profit" := by
  unfold advancedLegacyPartial at h
  split_ifs at h <;> simp only [Prod.mk.injEq] at h
  · exact h.2.1.symm
  all_goals exact absurd h.1 Bool.false_ne_true

theorem advancedPartials_reason (a : AdvancedStrategy) (st : AdvancedState)
    (pid : String) (pnl : ℚ) (r : String) (f : ℚ)
    (h : (advancedPartials a st pid pnl).2 = (true, r, f)) :
    r = "partial_take_profit" ∨ ∃ o : ℤ, r = "partial_take_profit_" ++ toString o := by
  unfold advancedPartials at h
  split_ifs at h
  · unfold advancedPartialsScan at h
    rcases hscan : scanPartials a.partial_exits (firedOf (advInitFired st pid) pid) pnl
      with _ | c
    · rw [hscan] at h
      exact Or.inl (advancedLegacyPartial_reason _ _ _ _ _ _ h)
    · rw [hscan] at h
      simp only [Prod.mk.injEq] at h
      exact Or.inr ⟨c.exit_order, h.2.1.symm⟩
  · exact Or.inl (advancedLegacyPartial_reason _ _ _ _ _ _ h)

def cfgC3 : AdvancedStrategyConfig :=
  { default_take_profit := 20, default_stop_loss := 50,
    dynamic_trailing_enabled := false, dynamic_trailing_base := 20,
    dynamic_trailing_tight := 5, dynamic_trailing_threshold := 50,
    time_trailing_enabled := false, time_trailing_start_hours := 24,
    time_trailing_max_hours := 72, time_trailing_tight := 5,
    partial_exit_percent := some 50, partial_exit_threshold := some 5 }

def aC3 : AdvancedStrategy := mkAdvancedStrategy cfgC3 [] []

def posC3 : PositionView :=
  { id := "1", entry_price := 1/2, capital_allocated := some 100, size := 100 }

/-- C3 counterexample: a first evaluation at pnl% = 10 fires the legacy
single partial exit (recording the flag under key "1_partial" in the
high-water-mark dict); a second evaluation at pnl% = 22 is a full
take-profit exit, yet `AdvancedStrategy._cleanup_position` leaves the
"1_partial" flag in the runtime map. -/
theorem advanced_cleanup_leaves_legacy_flag_cex :
    (advancedShouldExit aC3 (advancedShouldExit aC3 {} posC3 (11/20) 0).1 posC3
      (61/100) 0).2 = (true, "take_profit", 1) ∧
    dget (advancedShouldExit aC3 (advancedShouldExit aC3 {} posC3 (11/20) 0).1 posC3
      (61/100) 0).1.hwm "1_partial" = some (HVal.flag true) := by
  have hkey : ("1" ++ "_partial" : String) = "1_partial" := rfl
  norm_num [hkey, advancedShouldExit, advancedPartials, advancedLegacyPartial,
    advancedCleanup, advCache, getParamsForSource, calcPnlPercent, calcDynamicTrail,
    calcTimeTrail, updatedHigh, scanPartials, firedOf, setAdd, dget, dset, dpop,
    truthyQ, PositionView.capital, HVal.toQ, mkAdvancedStrategy, List.insertionSort,
    aC3, cfgC3, posC3]

/-- C3 amended: when `should_exit` returns a full exit through take-profit,
stop-loss or a trailing stop (the branches that invoke `_cleanup_position`),
CustomStrategy removes both the high-water mark and the legacy partial flag
for that position id, and AdvancedStrategy removes the high-water mark, the
cached created_at and the fired partial-exit ids — but AdvancedStrategy does
not remove the legacy single-partial flag (see the counterexample). -/
theorem full_exit_cleanup_amended :
    (∀ (s : CustomStrategy) (hwm : List (String × HVal)) (pos : PositionView)
      (c : ℚ) (r : String),
      (customShouldExit s hwm pos c).2 = (true, r, 1) →
      r ∈ (["take_profit", "stop_loss", "trailing_stop"] : List String) →
      dget (customShouldExit s hwm pos c).1 pos.id = none ∧
      dget (customShouldExit s hwm pos c).1 (pos.id ++ "_partial") = none) ∧
    (∀ (a : AdvancedStrategy) (st : AdvancedState) (pos : PositionView)
      (c now : ℚ) (r : String),
      (advancedShouldExit a st pos c now).2 = (true, r, 1) →
      r ∈ (["take_profit", "stop_loss", "dynamic_trailing", "time_trailing"] :
        List String) →
      dget (advancedShouldExit a st pos c now).1.hwm pos.id = none ∧
      dget (advancedShouldExit a st pos c now).1.created_at pos.id = none ∧
      dget (advancedShouldExit a st pos c now).1.fired pos.id = none) := by
  constructor
  · intro s hwm pos c r hres hr
    simp only [customShouldExit] at hres ⊢
    split_ifs at hres ⊢
    · exact ⟨dget_customCleanup_id _ _, dget_customCleanup_partial_key _ _⟩
    · exact ⟨dget_customCleanup_id _ _, dget_customCleanup_partial_key _ _⟩
    · exact ⟨dget_customCleanup_id _ _, dget_customCleanup_partial_key _ _⟩
    · rw [customPartial_reason _ _ _ _ _ _ hres] at hr
      exact absurd hr (by decide)
  · intro a st pos c now r hres hr
    simp only [advancedShouldExit] at hres ⊢
    split_ifs at hres ⊢
    · exact ⟨dget_dpop_self _ _, dget_dpop_self _ _, dget_dpop_self _ _⟩
    · exact ⟨dget_dpop_self _ _, dget_dpop_self _ _, dget_dpop_self _ _⟩
    · exact ⟨dget_dpop_self _ _, dget_dpop_self _ _, dget_dpop_self _ _⟩
    · exact ⟨dget_dpop_self _ _, dget_dpop_self _ _, dget_dpop_self _ _⟩
    · rcases advancedPartials_reason _ _ _ _ _ _ hres with h' | ⟨o, h'⟩
      · rw [h'] at hr
        exact absurd hr (by decide)
      · rw [h'] at hr
        simp only [List.mem_cons, List.mem_singleton, List.not_mem_nil, or_false] at hr
        rcases hr with h'' | h'' | h'' | h'' <;>
          exact absurd h'' (partial_reason_short _ _ (by decide))

def sC3w : CustomStrategy := { take_profit := 20, stop_loss := 10 }

def posC3w : PositionView :=
  { id := "1", entry_price := 1/2, capital_allocated := some 100, size := 100 }

theorem full_exit_cleanup_amended_witness :
    dget (customShouldExit sC3w [] posC3w (61/100)).1 "1" = none ∧
    dget (customShouldExit sC3w [] posC3w (61/100)).1 ("1" ++ "_partial") = none :=
  full_exit_cleanup_amended.1 sC3w [] posC3w (61/100) "take_profit"
    (by norm_num [customShouldExit, customPartial, customCleanup, calcPnlPercent,
      updatedHigh, dget, dset, dpop, truthyQ, PositionView.capital, HVal.toQ,
      sC3w, posC3w])
    (by decide)

/-! ## C5 -/

def cfgC5 : AdvancedStrategyConfig :=
  { default_take_profit := 50, default_stop_loss := 50,
    dynamic_trailing_enabled := false, dynamic_trailing_base := 20,
    dynamic_trailing_tight := 5, dynamic_trailing_threshold := 50,
    time_trailing_enabled := false, time_trailing_start_hours := 24,
    time_trailing_max_hours := 72, time_trailing_tight := 5 }

def aC5 : AdvancedStrategy :=
  mkAdvancedStrategy cfgC5 [] [{ exit_order := 1, exit_percent := 100, threshold := 1 }]

def posC5 : PositionView :=
  { id := "1", entry_price := 1/2, capital_allocated := some 100, size := 100 }

/-- C5 counterexample: a partial-exit config with exit_percent = 100 makes
`should_exit` return fraction 1.0 (a full exit, reason
"partial_take_profit_1") although neither take-profit nor stop-loss fired
and the trailing condition `hwm > 0 ∧ hwm - pnl% >= min(dynamic, time)`
fails, so "full exit (fraction 1.0) exactly when the trailing condition
holds" is false as stated. -/
theorem advanced_full_exit_without_trailing_cex :
    (advancedShouldExit aC5 {} posC5 (21/40) 0).2 = (true, "partial_take_profit_1", 1) ∧
    ¬(0 < updatedHigh [] "1" (calcPnlPercent (1/2) (21/40) 100 "Yes") ∧
      updatedHigh [] "1" (calcPnlPercent (1/2) (21/40) 100 "Yes")
        - calcPnlPercent (1/2) (21/40) 100 "Yes"
        ≥ min (calcDynamicTrail cfgC5 (1/2) (21/40) "Yes")
            (calcTimeTrail cfgC5 "1" none [] 0)) := by
  have hstr : ("partial_take_profit_" ++ toString (1:ℤ) : String) =
    "partial_take_profit_1" := rfl
  norm_num [hstr, advancedShouldExit, advancedPartials, advancedPartialsScan,
    advInitFired, advancedLegacyPartial, advancedCleanup, advCache,
    getParamsForSource, calcPnlPercent, calcDynamicTrail, calcTimeTrail,
    updatedHigh, scanPartials, firedOf, setAdd, dget, dset, dpop, truthyQ,
    PositionView.capital, HVal.toQ, mkAdvancedStrategy, List.insertionSort,
    List.orderedInsert, aC5, cfgC5, posC5]

/-- C5 amended: in `AdvancedStrategy.should_exit`, when neither take-profit
nor stop-loss fires, a full exit carrying a trailing reason is returned
exactly when `hwm > 0` and `hwm - pnl% >= min(dynamic trail, time trail)`,
and any trailing reason returned names whichever curve was tighter
("dynamic_trailing" on ties); a partial-exit config with exit_percent = 100
can also return fraction 1.0, with a partial_take_profit reason (see the
counterexample). -/
theorem advanced_effective_trailing_amended (a : AdvancedStrategy)
    (st : AdvancedState) (pos : PositionView) (c now : ℚ)
    (htp : calcPnlPercent pos.entry_price c pos.capital pos.side <
      (getParamsForSource a pos.source).1)
    (hsl : -(getParamsForSource a pos.source).2.1 <
      calcPnlPercent pos.entry_price c pos.capital pos.side) :
    ((advancedShouldExit a st pos c now).2 =
      (true,
        if calcDynamicTrail a.config pos.entry_price c pos.side ≤
            calcTimeTrail a.config pos.id pos.created_at (advCache st pos).created_at now
          then "dynamic_trailing" else "time_trailing", 1)
      ↔ (0 < updatedHigh (advCache st pos).hwm pos.id
            (calcPnlPercent pos.entry_price c pos.capital pos.side) ∧
          updatedHigh (advCache st pos).hwm pos.id
            (calcPnlPercent pos.entry_price c pos.capital pos.side)
          - calcPnlPercent pos.entry_price c pos.capital pos.side
          ≥ min (calcDynamicTrail a.config pos.entry_price c pos.side)
              (calcTimeTrail a.config pos.id pos.created_at
                (advCache st pos).created_at now))) ∧
    (∀ r : String, (advancedShouldExit a st pos c now).2 = (true, r, 1) →
      r = "dynamic_trailing" ∨ r = "time_trailing" →
      r = (if calcDynamicTrail a.config pos.entry_price c pos.side ≤
            calcTimeTrail a.config pos.id pos.created_at (advCache st pos).created_at now
          then "dynamic_trailing" else "time_trailing")) := by
  simp only [advancedShouldExit]
  rw [if_neg (not_le.mpr htp), if_neg (not_le.mpr (by linarith))]
  by_cases hcond : (0 < updatedHigh (advCache st pos).hwm pos.id
      (calcPnlPercent pos.entry_price c pos.capital pos.side) ∧
    updatedHigh (advCache st pos).hwm pos.id
      (calcPnlPercent pos.entry_price c pos.capital pos.side)
    - calcPnlPercent pos.entry_price c pos.capital pos.side
    ≥ min (calcDynamicTrail a.config pos.entry_price c pos.side)
        (calcTimeTrail a.config pos.id pos.created_at (advCache st pos).created_at now))
  · rw [if_pos hcond]
    refine ⟨by simp [hcond], ?_⟩
    intro r hres hr
    simp only [Prod.mk.injEq] at hres
    exact hres.2.1.symm
  · rw [if_neg hcond]
    constructor
    · constructor
      · intro hres
        rcases advancedPartials_reason _ _ _ _ _ _ hres with h' | ⟨o, h'⟩
        · by_cases hd : calcDynamicTrail a.config pos.entry_price c pos.side ≤
              calcTimeTrail a.config pos.id pos.created_at (advCache st pos).created_at now
          · rw [if_pos hd] at h'
            exact absurd h' (by decide)
          · rw [if_neg hd] at h'
            exact absurd h' (by decide)
        · by_cases hd : calcDynamicTrail a.config pos.entry_price c pos.side ≤
              calcTimeTrail a.config pos.id pos.created_at (advCache st pos).created_at now
          · rw [if_pos hd] at h'
            exact absurd h'.symm (partial_reason_short _ _ (by decide))
          · rw [if_neg hd] at h'
            exact absurd h'.symm (partial_reason_short _ _ (by decide))
      · intro h
        exact absurd h hcond
    · intro r hres hr
      rcases advancedPartials_reason _ _ _ _ _ _ hres with h' | ⟨o, h'⟩
      · rcases hr with h'' | h'' <;> rw [h''] at h' <;> exact absurd h' (by decide)
      · rcases hr with h'' | h'' <;> rw [h''] at h' <;>
          exact absurd h'.symm (partial_reason_short _ _ (by decide))

def aC5w : AdvancedStrategy := mkAdvancedStrategy cfgC5 [] []

def stC5w : AdvancedState := { hwm := [("1", HVal.num 25)] }

theorem advanced_effective_trailing_amended_witness :
    (advancedShouldExit aC5w stC5w posC5 (51/100) 0).2 =
      (true,
        if calcDynamicTrail aC5w.config posC5.entry_price (51/100) posC5.side ≤
            calcTimeTrail aC5w.config posC5.id posC5.created_at
              (advCache stC5w posC5).created_at 0
          then "dynamic_trailing" else "time_trailing", 1) :=
  (advanced_effective_trailing_amended aC5w stC5w posC5 (51/100) 0
    (by norm_num [calcPnlPercent, getParamsForSource, PositionView.capital,
      mkAdvancedStrategy, dget, aC5w, cfgC5, posC5])
    (by norm_num [calcPnlPercent, getParamsForSource, PositionView.capital,
      mkAdvancedStrategy, dget, aC5w, cfgC5, posC5])).1.mpr
    (by norm_num [updatedHigh, advCache, calcPnlPercent, calcDynamicTrail,
      calcTimeTrail, PositionView.capital, HVal.toQ, dget, mkAdvancedStrategy,
      aC5w, cfgC5, posC5, stC5w])

/-! ## C6 -/

/-- The reasons of the full exits that call `_cleanup_position` and thereby
end a position's runtime lifetime. -/
def fullExitReasons : List String :=
  ["take_profit", "stop_loss", "dynamic_trailing", "time_trailing"]

/-- A sequence of `should_exit` evaluations of one position, threading the
runtime state; each step is a (current_price, now) pair. -/
def advRun (a : AdvancedStrategy) (pos : PositionView) (st : AdvancedState) :
    List (ℚ × ℚ) → List (AdvancedState × Bool × String × ℚ)
  | [] => []
  | step :: rest =>
    advancedShouldExit a st pos step.1 step.2 ::
      advRun a pos (advancedShouldExit a st pos step.1 step.2).1 rest

/-- How many evaluations of a run newly mark partial-exit order `o` as fired
for the position. -/
def countFires (a : AdvancedStrategy) (pos : PositionView) (o : ℤ) :
    AdvancedState → List (ℚ × ℚ) → ℕ
  | _, [] => 0
  | st, step :: rest =>
    (if o ∉ firedOf st pos.id ∧
        o ∈ firedOf (advancedShouldExit a st pos step.1 step.2).1 pos.id
      then 1 else 0) +
      countFires a pos o (advancedShouldExit a st pos step.1 step.2).1 rest

theorem advCache_fired (st : AdvancedState) (pos : PositionView) :
    (advCache st pos).fired = st.fired := by
  unfold advCache
  cases hc : pos.created_at
  · rfl
  · dsimp only
    split_ifs <;> rfl

theorem advPre_fired (st : AdvancedState) (pos : PositionView) (pnl : ℚ) :
    (advPre st pos pnl).fired = st.fired :=
  advCache_fired st pos

theorem firedOf_advPre (st : AdvancedState) (pos : PositionView) (pnl : ℚ) :
    firedOf (advPre st pos pnl) pos.id = firedOf st pos.id := by
  unfold firedOf
  rw [advPre_fired]

theorem advancedLegacyPartial_fired (cfg : AdvancedStrategyConfig)
    (st : AdvancedState) (pid : String) (pnl : ℚ) :
    (advancedLegacyPartial cfg st pid pnl).1.fired = st.fired := by
  unfold advancedLegacyPartial
  split_ifs <;> rfl

theorem firedOf_advInitFired (st : AdvancedState) (pid : String) :
    firedOf (advInitFired st pid) pid = firedOf st pid := by
  unfold advInitFired firedOf
  split_ifs with h
  · rw [dget_dset_self, h]
    rfl
  · rfl

theorem mem_setAdd_of_mem {s : List ℤ} {x : ℤ} (y : ℤ) (h : x ∈ s) :
    x ∈ setAdd s y := by
  unfold setAdd
  split_ifs
  · exact h
  · exact List.mem_append_left _ h

theorem firedOf_advancedLegacyPartial (cfg : AdvancedStrategyConfig)
    (st : AdvancedState) (pid : String) (pnl : ℚ) :
    firedOf (advancedLegacyPartial cfg st pid pnl).1 pid = firedOf st pid := by
  unfold firedOf
  rw [advancedLegacyPartial_fired]

theorem firedOf_set (st : AdvancedState) (pid : String) (l : List ℤ) :
    firedOf { st with fired := dset st.fired pid l } pid = l := by
  unfold firedOf
  rw [dget_dset_self]
  rfl

theorem advancedPartials_fired_mono (a : AdvancedStrategy) (st : AdvancedState)
    (pid : String) (pnl : ℚ) :
    firedOf st pid ⊆ firedOf (advancedPartials a st pid pnl).1 pid := by
  unfold advancedPartials
  split_ifs with h1
  · unfold advancedPartialsScan
    rcases hscan : scanPartials a.partial_exits (firedOf (advInitFired st pid) pid) pnl
      with _ | c
    · dsimp only
      intro x hx
      rw [firedOf_advancedLegacyPartial, firedOf_advInitFired]
      exact hx
    · dsimp only
      intro x hx
      rw [firedOf_set]
      exact mem_setAdd_of_mem _ (by rw [firedOf_advInitFired]; exact hx)
  · intro x hx
    rw [firedOf_advancedLegacyPartial]
    exact hx

/-- A single evaluation that does not take a cleanup full exit never
un-marks a fired partial-exit order. -/
theorem fired_mono (a : AdvancedStrategy) (st : AdvancedState) (pos : PositionView)
    (c now : ℚ)
    (hnf : (advancedShouldExit a st pos c now).2.2.1 ∉ fullExitReasons) :
    firedOf st pos.id ⊆ firedOf (advancedShouldExit a st pos c now).1 pos.id := by
  simp only [advancedShouldExit] at hnf ⊢
  split_ifs at hnf ⊢
  · exact absurd (show "take_profit" ∈ fullExitReasons by decide) hnf
  · exact absurd (show "stop_loss" ∈ fullExitReasons by decide) hnf
  · exact absurd (show "dynamic_trailing" ∈ fullExitReasons by decide) hnf
  · exact absurd (show "time_trailing" ∈ fullExitReasons by decide) hnf
  · intro x hx
    exact advancedPartials_fired_mono a _ pos.id _
      ((firedOf_advPre st pos _).symm ▸ hx)

theorem countFires_zero (a : AdvancedStrategy) (pos : PositionView) (o : ℤ) :
    ∀ (steps : List (ℚ × ℚ)) (st : AdvancedState),
    o ∈ firedOf st pos.id →
    (∀ s ∈ advRun a pos st steps, s.2.2.1 ∉ fullExitReasons) →
    countFires a pos o st steps = 0 := by
  intro steps
  induction steps with
  | nil => intro st _ _; rfl
  | cons step rest ih =>
    intro st h hall
    have hhead : (advancedShouldExit a st pos step.1 step.2).2.2.1 ∉ fullExitReasons :=
      hall _ (by rw [advRun]; exact List.mem_cons_self _ _)
    rw [countFires, if_neg (by rintro ⟨h1, -⟩; exact h1 h), ih _
      (fired_mono a st pos step.1 step.2 hhead h)
      (fun s hs => hall s (by rw [advRun]; exact List.mem_cons_of_mem _ hs))]

theorem countFires_le_one (a : AdvancedStrategy) (pos : PositionView) (o : ℤ) :
    ∀ (steps : List (ℚ × ℚ)) (st : AdvancedState),
    (∀ s ∈ advRun a pos st steps, s.2.2.1 ∉ fullExitReasons) →
    countFires a pos o st steps ≤ 1 := by
  intro steps
  induction steps with
  | nil => intro st _; exact Nat.zero_le 1
  | cons step rest ih =>
    intro st hall
    have htail : ∀ s ∈ advRun a pos (advancedShouldExit a st pos step.1 step.2).1 rest,
        s.2.2.1 ∉ fullExitReasons :=
      fun s hs => hall s (by rw [advRun]; exact List.mem_cons_of_mem _ hs)
    rw [countFires]
    by_cases hc : (o ∉ firedOf st pos.id ∧
        o ∈ firedOf (advancedShouldExit a st pos step.1 step.2).1 pos.id)
    · rw [if_pos hc, countFires_zero a pos o rest _ hc.2 htail]
    · rw [if_neg hc, Nat.zero_add]
      exact ih _ htail

theorem scanPartials_first (l : List PartialExitConfig) (fired : List ℤ) (pnl : ℚ) :
    ∀ c, scanPartials l fired pnl = some c →
      c.exit_order ∉ fired ∧ pnl ≥ c.threshold ∧
      ∃ l1 l2, l = l1 ++ c :: l2 ∧
        ∀ d ∈ l1, d.exit_order ∈ fired ∨ pnl < d.threshold := by
  induction l with
  | nil => intro c h; cases h
  | cons hd tl ih =>
    intro c h
    rw [scanPartials] at h
    split_ifs at h with h1 h2
    · obtain ⟨hnf, hth, l1, l2, heq, hall⟩ := ih c h
      refine ⟨hnf, hth, hd :: l1, l2, by rw [heq]; rfl, ?_⟩
      intro d hd'
      rcases List.mem_cons.mp hd' with hdd | hdd
      · exact Or.inl (hdd ▸ h1)
      · exact hall d hdd
    · cases h
      exact ⟨h1, h2, [], tl, rfl, by intro d hd'; cases hd'⟩
    · obtain ⟨hnf, hth, l1, l2, heq, hall⟩ := ih c h
      refine ⟨hnf, hth, hd :: l1, l2, by rw [heq]; rfl, ?_⟩
      intro d hd'
      rcases List.mem_cons.mp hd' with hdd | hdd
      · exact Or.inr (hdd ▸ not_le.mp h2)
      · exact hall d hdd

/-- C6: the constructor sorts the partial-exit configs ascending by
threshold; the evaluation scan returns the first not-yet-fired config whose
threshold is reached; firing returns fraction = exit_percent/100 with reason
`partial_take_profit_<order>` and adds the order to the fired set; and over
any run of evaluations containing no cleanup full exit, each exit_order is
newly fired at most once. -/
theorem advanced_partial_exits_ordered_once :
    (∀ (cfg : AdvancedStrategyConfig) (srcs : List SourceParams)
      (pes : List PartialExitConfig),
      List.Sorted (fun x y => x.threshold ≤ y.threshold)
        (mkAdvancedStrategy cfg srcs pes).partial_exits) ∧
    (∀ (l : List PartialExitConfig) (fired : List ℤ) (pnl : ℚ)
      (c : PartialExitConfig),
      scanPartials l fired pnl = some c →
      c.exit_order ∉ fired ∧ pnl ≥ c.threshold ∧
      ∃ l1 l2, l = l1 ++ c :: l2 ∧
        ∀ d ∈ l1, d.exit_order ∈ fired ∨ pnl < d.threshold) ∧
    (∀ (a : AdvancedStrategy) (st : AdvancedState) (pid : String) (pnl : ℚ)
      (c : PartialExitConfig),
      a.partial_exits ≠ [] →
      scanPartials a.partial_exits (firedOf st pid) pnl = some c →
      (advancedPartials a st pid pnl).2 =
        (true, "partial_take_profit_" ++ toString c.exit_order, c.exit_percent / 100) ∧
      firedOf (advancedPartials a st pid pnl).1 pid =
        setAdd (firedOf st pid) c.exit_order) ∧
    (∀ (a : AdvancedStrategy) (pos : PositionView) (o : ℤ)
      (steps : List (ℚ × ℚ)) (st : AdvancedState),
      (∀ s ∈ advRun a pos st steps, s.2.2.1 ∉ fullExitReasons) →
      countFires a pos o st steps ≤ 1) := by
  refine ⟨?_, scanPartials_first, ?_, countFires_le_one⟩
  · intro cfg srcs pes
    unfold mkAdvancedStrategy
    haveI : IsTotal PartialExitConfig (fun x y => x.threshold ≤ y.threshold) :=
      ⟨fun x y => le_total x.threshold y.threshold⟩
    haveI : IsTrans PartialExitConfig (fun x y => x.threshold ≤ y.threshold) :=
      ⟨fun x y z hxy hyz => le_trans hxy hyz⟩
    exact List.sorted_insertionSort _ pes
  · intro a st pid pnl c hne hscan
    have hscan1 : scanPartials a.partial_exits (firedOf (advInitFired st pid) pid) pnl
        = some c := by
      rw [firedOf_advInitFired]
      exact hscan
    unfold advancedPartials
    rw [if_pos hne]
    unfold advancedPartialsScan
    rw [hscan1]
    refine ⟨rfl, ?_⟩
    rw [firedOf_set, firedOf_advInitFired]

def aC6 : AdvancedStrategy :=
  mkAdvancedStrategy cfgC5 [] [{ exit_order := 1, exit_percent := 50, threshold := 5 }]

def posC6 : PositionView :=
  { id := "1", entry_price := 1/2, capital_allocated := some 100, size := 100 }

theorem advanced_partial_exits_ordered_once_witness :
    countFires aC6 posC6 1 {} [(53/100, 0), (27/50, 0)] ≤ 1 :=
  advanced_partial_exits_ordered_once.2.2.2 aC6 posC6 1 [(53/100, 0), (27/50, 0)] {}
    (by
      have hstr : ("partial_take_profit_" ++ toString (1:ℤ) : String) =
        "partial_take_profit_1" := rfl
      norm_num [hstr, advRun, advancedShouldExit, advancedPartials,
        advancedPartialsScan, advInitFired, advancedLegacyPartial, advancedCleanup,
        advCache, advPre, getParamsForSource, calcPnlPercent, calcDynamicTrail,
        calcTimeTrail, updatedHigh, scanPartials, firedOf, setAdd, dget, dset, dpop,
        truthyQ, PositionView.capital, HVal.toQ, mkAdvancedStrategy,
        List.insertionSort, List.orderedInsert, fullExitReasons, aC6, cfgC5, posC6]
      decide)

end PolyBot
